import Mathlib

/-!
Shallow embedding of the reconciliation engine of a ZFS remote-state
provider (Go sources under internal/provider), together with proofs about
its property-diff engine, entity parsers, lifecycle recovery logic and
error classification.  Each definition is translated from the named Go
function; file/line references point into the Go sources.
-/

namespace ZfsProvider

/-- Go `strings.Contains s pat`: `pat` occurs as a contiguous substring of `s`.
Implemented over the character lists, scanning every suffix. -/
def hasSubList (pat : List Char) : List Char → Bool
  | [] => pat.isEmpty
  | c :: rest => pat.isPrefixOf (c :: rest) || hasSubList pat rest

/-- Go `strings.Contains`. -/
def strContains (s pat : String) : Bool :=
  hasSubList pat.toList s.toList

/-- Go `strings.HasPrefix`, over the character lists. -/
def strStartsWith (s pre : String) : Bool :=
  pre.toList.isPrefixOf s.toList

/-- The closed list of pool-only property names (zfs.go:54-83, `poolProperties`). -/
def poolProperties : List String :=
  ["allocated", "altroot", "ashift", "autoexpand", "autoreplace", "autotrim",
   "bootfs", "cachefile", "capacity", "checkpoint", "comment", "compatibility",
   "dedupratio", "delegation", "expandsize", "failmode", "fragmentation",
   "free", "freeing", "guid", "health", "leaked", "listsnapshots", "load_guid",
   "multihost", "readonly", "size", "version"]

/-- Translation of `isPoolProperty` (zfs.go:85-92): membership in the fixed
list, or the literal `feature@` name pattern at the start. -/
def isPoolProperty (property : String) : Bool :=
  poolProperties.contains property || strStartsWith property "feature@"

/-- Property source enum (zfs.go:14-23). -/
inductive PropertySource where
  | sourceLocal
  | sourceDefault
  | sourceInherited
  | sourceTemporary
  | sourceReceived
  | sourceNone
deriving DecidableEq, Repr

/-- One observed ZFS property (zfs.go:94-98, `Property`). -/
structure Property where
  source : PropertySource
  value : String
  rawValue : String
deriving DecidableEq, Repr

/-- Lookup in an association list of `(name, value)` pairs; models reading a
Go `map[string]string` entry, `none` when the key is absent. -/
def lookupName (pairs : List (String × String)) (name : String) : Option String :=
  (pairs.find? fun kv => kv.1 == name).map (fun kv => kv.2)

/-- Go map read `defined[name]`: a missing key yields the zero value `""`
(zfs.go:252). -/
def lookupNameZero (pairs : List (String × String)) (name : String) : String :=
  (lookupName pairs name).getD ""

instance {ε α : Type} [DecidableEq ε] [DecidableEq α] : DecidableEq (Except ε α) := fun x y =>
  match x, y with
  | .ok a, .ok b =>
    if h : a = b then .isTrue (by rw [h]) else .isFalse (fun hh => h (Except.ok.inj hh))
  | .error a, .error b =>
    if h : a = b then .isTrue (by rw [h]) else .isFalse (fun hh => h (Except.error.inj hh))
  | .ok _, .error _ => .isFalse (fun hh => Except.noConfusion hh)
  | .error _, .ok _ => .isFalse (fun hh => Except.noConfusion hh)

/-- The value stored into a synthesized block (zfs.go:249-254): the observed
`value`, replaced by `rawValue` when `defined[name]` (zero value `""` for a
missing key) equals `rawValue`. -/
def blockValue (defined : List (String × String)) (name : String) (property : Property) :
    String :=
  if lookupNameZero defined name == property.rawValue then property.rawValue
  else property.value

/-- Translation of the block-synthesis loop of `updatePropertiesInState`
(zfs.go:219-258).  `observed` (the final argument) is the observed property
map, as an association list standing in for the Go map; `defined` holds the
prior declared `(name, value)` pairs, `ignored` the ignore list, `mode` the
`property_mode` string.  The result is the list of `(name, value)` blocks
written back into the declared set, or the hard error raised for an invalid
mode.  The Go `switch` with its `fallthrough` from `native` into `all`
becomes a chain of conditionals; a property that survives the mode filters
— or whose name is already declared, which bypasses them — appends one
block (zfs.go:249-255). -/
def updatePropertiesInState (mode : String) (ignored : List String)
    (defined : List (String × String)) :
    List (String × Property) → Except String (List (String × String))
  | [] => .ok []
  | (name, property) :: rest =>
    if ignored.contains name then
      updatePropertiesInState mode ignored defined rest
    else if (lookupName defined name).isSome then
      (updatePropertiesInState mode ignored defined rest).map
        (fun blocks => (name, blockValue defined name property) :: blocks)
    else if mode == "defined" then
      updatePropertiesInState mode ignored defined rest
    else if mode == "native" && strContains name ":" then
      updatePropertiesInState mode ignored defined rest
    else if mode == "native" || mode == "all" then
      if property.source != .sourceLocal && property.source != .sourceTemporary then
        updatePropertiesInState mode ignored defined rest
      else if isPoolProperty name then
        updatePropertiesInState mode ignored defined rest
      else
        (updatePropertiesInState mode ignored defined rest).map
          (fun blocks => (name, blockValue defined name property) :: blocks)
    else
      .error ("invalid value " ++ mode ++ " for property_mode")

/-- Outcome of one remote command, as classified by `callSshCommand`
(helpers.go:49-73, the revision taking a `*Config`).  The constructors mirror
the Go error types `DatasetError`, `PoolError`, `StderrError` and
`SshConnectError`; `sshConnectError true` is the `command timed out` case
produced when the channel reports not-completed, `sshConnectError false`
wraps a transport error from `Run` itself. -/
inductive SshResult where
  | success (stdout : String)
  | datasetError (errmsg : String)
  | poolError (errmsg : String)
  | stderrError (stderr : String)
  | sshConnectError (timedOut : Bool)
deriving DecidableEq, Repr

/-- Go `strings.TrimSuffix stdout "\n"`: strip exactly one trailing newline
when present (helpers.go:72). -/
def trimSuffixNewline (s : String) : String :=
  match s.toList.reverse with
  | [] => s
  | c :: rest => if c == '\n' then String.mk rest.reverse else s

/-- Translation of the classification logic of `callSshCommand`
(helpers.go:52-72).  The inputs are the four results of
`ssh.Run(command, 60s)`: `stdout`, `stderr`, the completion flag `done`, and
whether `Run` returned a transport error (`runErr`). -/
def classifySshRun (stdout stderr : String) (done : Bool) (runErr : Bool) : SshResult :=
  if stderr != "" then
    if strContains stderr "dataset does not exist" then
      .datasetError "dataset does not exist"
    else if strContains stderr "no such pool" then
      .poolError "zpool does not exist"
    else
      .stderrError stderr
  else if runErr then
    .sshConnectError false
  else if !done then
    .sshConnectError true
  else
    .success (trimSuffixNewline stdout)

/-- The single-quote character, used by the shell-escaping routine. -/
def squote : String := String.mk [Char.ofNat 39]

/-- A character that never forces quoting in the vendored shell-escape
routine: word characters plus @ % + = : , . slash and hyphen (the complement
of its unsafe-character pattern). -/
def shellSafeChar (c : Char) : Bool :=
  c.isAlphanum || c == '_' || c == '@' || c == '%' || c == '+' || c == '=' ||
    c == ':' || c == ',' || c == '.' || c == '/' || c == '-'

/-- Translation of `shellescape.Quote` (vendored dependency used throughout
zfs.go): the empty string becomes a pair of single quotes; a string of only
safe characters is returned unchanged; anything else is wrapped in single
quotes with every embedded single quote replaced by the five-character
sequence quote, double-quote, quote, double-quote, quote. -/
def shellQuote (s : String) : String :=
  if s.toList.isEmpty then squote ++ squote
  else if s.toList.all shellSafeChar then s
  else
    let escaped := s.toList.foldr
      (fun c acc => (if c == Char.ofNat 39 then (squote ++ "\"" ++ squote ++ "\"" ++ squote).toList else [c]) ++ acc) []
    squote ++ String.mk escaped ++ squote

/-- Translation of `getResetCommand` (zfs.go:260-268): the returned flag is
`false` when the property is a pool property (which cannot be reset), in
which case the string is only a log message; otherwise the string is the
command stem issued to the remote host. -/
def getResetCommand (property : String) : String × Bool :=
  if isPoolProperty property then
    ("zpool properties cannot be reset back to a default value", false)
  else if strContains property "quota@" then
    ("zfs set " ++ shellQuote property ++ "=none", true)
  else
    ("zfs inherit -S " ++ shellQuote property, true)

/-- What the removal loop of `applyPropertyDiff` (zfs.go:297-305) does for a
single removed property: either a remote command is issued, or the property
is skipped with a log line, leaving it at its current value. -/
inductive ResetAction where
  | skip
  | command (cmd : String)
deriving DecidableEq, Repr

/-- The action taken for one removed property name: `callSshCommand(config,
"%s %s", result, targetName)` when `getResetCommand` returns `ok`, a
log-and-skip otherwise (zfs.go:297-305). -/
def resetActionFor (targetName property : String) : ResetAction :=
  match getResetCommand property with
  | (result, true) => .command (result ++ " " ++ targetName)
  | (_, false) => .skip

/-- Names of the removed property blocks: `applyPropertyDiff` computes
`oldProperties.Difference(newProperties)` — the declared blocks (as whole
`(name, value)` pairs) present in the prior set but not the new set — and
collects them into a name-keyed map via `parsePropertyBlocks`
(zfs.go:295).  `dedup` models the key set of that map. -/
def removedNames (oldProperties newProperties : List (String × String)) : List String :=
  ((oldProperties.filter fun block => !newProperties.contains block).map
    (fun block => block.1)).dedup

/-- The sequence of reset actions performed by the removal loop of
`applyPropertyDiff` (zfs.go:297-305). -/
def removalActions (targetName : String)
    (oldProperties newProperties : List (String × String)) : List ResetAction :=
  (removedNames oldProperties newProperties).map (resetActionFor targetName)

/-- A bare device inside a pool layout (zfs.go:402-404). -/
structure Device where
  path : String
deriving DecidableEq, Repr

/-- A mirror group inside a pool layout (zfs.go:406-408). -/
structure Mirror where
  devices : List Device
deriving DecidableEq, Repr

/-- The reconstructed vdev topology of a pool (zfs.go:416-419). -/
structure PoolLayout where
  mirrors : List Mirror
  striped : List Device
deriving DecidableEq, Repr

/-- Go `mirror := &layout.mirrors[len(layout.mirrors)-1]; mirror.devices =
append(mirror.devices, d)` (zfs.go:473-474): append a device to the last
mirror of the list.  Only used when the list is non-empty. -/
def appendToLastMirror (d : Device) : List Mirror → List Mirror
  | [] => []
  | [m] => [⟨m.devices ++ [d]⟩]
  | m :: rest => m :: appendToLastMirror d rest

/-- One iteration of the row loop of `readPoolLayout` (zfs.go:448-477).
`name` is the vdev-name field of the row (column index 1 of the
tab-delimited `zpool list -HPv` output, the only field the loop reads). -/
def poolLayoutStep (layout : PoolLayout) (name : String) : PoolLayout :=
  if strStartsWith name "mirror" then
    { layout with mirrors := layout.mirrors ++ [⟨[]⟩] }
  else if layout.mirrors.isEmpty then
    { layout with striped := layout.striped ++ [⟨name⟩] }
  else
    { layout with mirrors := appendToLastMirror ⟨name⟩ layout.mirrors }

/-- Translation of `readPoolLayout` (zfs.go:421-482) after the ssh call:
`rows` is the ordered list of output rows, each represented by its vdev-name
field (column index 1), which is the only field the function inspects.  The
first row (the pool's own statistics line) is read and discarded; its
absence is the hard error `&PoolError{errmsg: "failed to read pool layout"}`
(zfs.go:434-439).  Remaining rows are folded in order through
`poolLayoutStep`. -/
def readPoolLayoutRows : List String → Except String PoolLayout
  | [] => .error "failed to read pool layout"
  | _statsRow :: rest => .ok (rest.foldl poolLayoutStep ⟨[], []⟩)

/-- Dataset type enum (zfs.go:25-32). -/
inductive DatasetType where
  | filesystemType
  | volumeType
deriving DecidableEq, Repr

/-- A described dataset (zfs.go:326-337). -/
structure Dataset where
  dsType : DatasetType
  guid : String
  creation : String
  used : String
  available : String
  referenced : String
  mounted : String
  mountpoint : String
  volsize : String
  properties : List (String × Property)
deriving DecidableEq, Repr

/-- A described pool (zfs.go:410-414). -/
structure Pool where
  guid : String
  properties : List (String × Property)
  layout : PoolLayout
deriving DecidableEq, Repr

/-- Translation of the result logic of `createDataset` (zfs.go:533-548).
`createErr` is the error returned by the `zfs create` command (`none` when
it succeeded); `describe` is the outcome of the follow-up
`describeDataset` call on the same name.  `describeDataset`
(zfs.go:373-400) returns a nil dataset on every error path and a non-nil
dataset exactly when it returns a nil error, so its outcome is an `Except`.
The result pair models Go's `(*Dataset, error)` return value.  When the
create command failed, the code re-describes the target; if the describe
also fails it executes `return fetch_dataset, err` — but `fetch_dataset` is
necessarily nil there — and if the describe succeeds it executes
`return nil, err`, discarding the described dataset (zfs.go:535-545). -/
def createDatasetResult (createErr : Option String) (describe : Except String Dataset) :
    Option Dataset × Option String :=
  match createErr with
  | some err =>
    match describe with
    | .error _fetcherr => (none, some err)
    | .ok _fetched => (none, some err)
  | none =>
    match describe with
    | .error fetcherr => (none, some fetcherr)
    | .ok fetched => (some fetched, none)

/-- Translation of the result logic of `createPool` (zfs.go:577-592), which
is structurally identical to `createDataset`: `describePool`
(zfs.go:484-503) likewise returns a nil pool on every error path, and on a
create failure the code returns a nil pool with the original error whether
or not the re-describe succeeds (zfs.go:579-589). -/
def createPoolResult (createErr : Option String) (describe : Except String Pool) :
    Option Pool × Option String :=
  match createErr with
  | some err =>
    match describe with
    | .error _fetcherr => (none, some err)
    | .ok _fetched => (none, some err)
  | none =>
    match describe with
    | .error fetcherr => (none, some fetcherr)
    | .ok fetched => (some fetched, none)

/-- The guard of the ownership lookup in `resourceDatasetRead`
(resource_dataset.go:179): `getFileOwnership` is invoked — issuing a remote
stat command — exactly when this returns `true`.  The Go condition is
`dataset.mountpoint != "none" && dataset.mountpoint != "legacy"`. -/
def resourceDatasetReadOwnershipLookup (mountpoint : String) : Bool :=
  mountpoint != "none" && mountpoint != "legacy"

/-- The guard of the ownership lookup in `dataSourceDatasetRead`
(data_source_dataset.go:200): `dataset.mountpoint != "" &&
dataset.mountpoint != "legacy" && dataset.mountpoint != "none"`. -/
def dataSourceDatasetReadOwnershipLookup (mountpoint : String) : Bool :=
  mountpoint != "" && mountpoint != "legacy" && mountpoint != "none"

/-- `resourcePoolRead` (resource_pool.go:196-220) performs no ownership
lookup at all: no code path in it calls `getFileOwnership`, so no stat
command is ever issued regardless of any mountpoint value. -/
def resourcePoolReadOwnershipLookup (_mountpoint : String) : Bool :=
  false

/-- Split a character list at every occurrence of `sep`; the list of groups
is never empty.  Models Go `strings.Split` for a one-character separator:
splitting the empty string yields `[""]`. -/
def splitCharList (sep : Char) : List Char → List (List Char)
  | [] => [[]]
  | c :: rest =>
    let groups := splitCharList sep rest
    if c == sep then [] :: groups
    else
      match groups with
      | [] => [[c]]
      | g :: gs => (c :: g) :: gs

/-- Go `strings.Split output ","` (helpers.go:89). -/
def goSplitComma (output : String) : List String :=
  (splitCharList ',' output.toList).map String.mk

/-- Digits of a character list as a number, `none` when empty or any
character is not a decimal digit. -/
def digitsToNat (l : List Char) : Option Nat :=
  if l.isEmpty || !l.all Char.isDigit then none
  else some (l.foldl (fun acc c => acc * 10 + (c.toNat - 48)) 0)

/-- Go `strconv.Atoi`: an optional leading sign followed by at least one
decimal digit, anything else is an error.  (The int64 range check of the
real function is not modelled; no claim depends on overflow.) -/
def goAtoi (s : String) : Option Int :=
  match s.toList with
  | '+' :: rest => (digitsToNat rest).map Int.ofNat
  | '-' :: rest => (digitsToNat rest).map (fun n => -(Int.ofNat n))
  | l => (digitsToNat l).map Int.ofNat

/-- Ownership of a mountpoint as parsed from stat output (helpers.go:75-80). -/
structure Ownership where
  userName : String
  groupName : String
  uid : Int
  gid : Int
deriving DecidableEq, Repr

/-- Outcome of `getFileOwnership`'s parsing phase.  `err` models the Go
function returning the `strconv.Atoi` error for the offending field;
`indexOutOfRange` models the Go runtime panic raised by `values[2]` or
`values[3]` when the split produced too few fields — the function performs
no field-count check (helpers.go:89-99). -/
inductive OwnershipResult where
  | ok (o : Ownership)
  | err (field : String)
  | indexOutOfRange
deriving DecidableEq, Repr

/-- Translation of the parsing phase of `getFileOwnership`
(helpers.go:82-107), applied to the stdout of the stat command after
`callSshCommand` succeeded.  Go evaluation order: `values[2]` is indexed
(panicking when fewer than 3 fields exist), its `Atoi` error is checked and
returned, then `values[3]` is indexed (panicking when fewer than 4 fields
exist), its `Atoi` error is checked, and finally the record is built from
fields 0 and 1 together with the parsed uid and gid. -/
def getFileOwnership (output : String) : OwnershipResult :=
  let values := goSplitComma output
  if values.length ≤ 2 then .indexOutOfRange
  else
    match goAtoi (values.getD 2 "") with
    | none => .err (values.getD 2 "")
    | some uid =>
      if values.length ≤ 3 then .indexOutOfRange
      else
        match goAtoi (values.getD 3 "") with
        | none => .err (values.getD 3 "")
        | some gid =>
          .ok ⟨values.getD 0 "", values.getD 1 "", uid, gid⟩

/-! ## Characterization lemmas for the property-synthesis modes -/

theorem update_defined_eq (ignored : List String) (defined : List (String × String)) :
    ∀ observed : List (String × Property),
      updatePropertiesInState "defined" ignored defined observed =
        .ok (observed.filterMap fun np =>
          if ignored.contains np.1 then none
          else if (lookupName defined np.1).isSome then
            some (np.1, blockValue defined np.1 np.2)
          else none)
  | [] => rfl
  | (name, property) :: rest => by
    have ih := update_defined_eq ignored defined rest
    simp only [updatePropertiesInState, List.filterMap_cons]
    by_cases h1 : name ∈ ignored
    · simp [h1, ih]
    · by_cases h2 : (lookupName defined name).isSome
      · simp [h1, h2, ih, Except.map]
      · simp [h1, h2, ih]

theorem update_native_eq (ignored : List String) (defined : List (String × String)) :
    ∀ observed : List (String × Property),
      updatePropertiesInState "native" ignored defined observed =
        .ok (observed.filterMap fun np =>
          if ignored.contains np.1 then none
          else if (lookupName defined np.1).isSome then
            some (np.1, blockValue defined np.1 np.2)
          else if strContains np.1 ":" then none
          else if np.2.source != .sourceLocal && np.2.source != .sourceTemporary then none
          else if isPoolProperty np.1 then none
          else some (np.1, blockValue defined np.1 np.2))
  | [] => rfl
  | (name, property) :: rest => by
    have ih := update_native_eq ignored defined rest
    simp only [updatePropertiesInState, List.filterMap_cons]
    by_cases h1 : name ∈ ignored
    · simp [h1, ih]
    · by_cases h2 : (lookupName defined name).isSome
      · simp [h1, h2, ih, Except.map]
      · by_cases h3 : strContains name ":" = true
        · simp [h1, h2, h3, ih]
        · by_cases h4 :
            (property.source != .sourceLocal && property.source != .sourceTemporary) = true
          · simp [h1, h2, h3, h4, ih]
          · by_cases h5 : isPoolProperty name = true
            · simp [h1, h2, h3, h4, h5, ih]
            · simp [h1, h2, h3, h4, h5, ih, Except.map]

theorem update_all_eq (ignored : List String) (defined : List (String × String)) :
    ∀ observed : List (String × Property),
      updatePropertiesInState "all" ignored defined observed =
        .ok (observed.filterMap fun np =>
          if ignored.contains np.1 then none
          else if (lookupName defined np.1).isSome then
            some (np.1, blockValue defined np.1 np.2)
          else if np.2.source != .sourceLocal && np.2.source != .sourceTemporary then none
          else if isPoolProperty np.1 then none
          else some (np.1, blockValue defined np.1 np.2))
  | [] => rfl
  | (name, property) :: rest => by
    have ih := update_all_eq ignored defined rest
    simp only [updatePropertiesInState, List.filterMap_cons]
    by_cases h1 : name ∈ ignored
    · simp [h1, ih]
    · by_cases h2 : (lookupName defined name).isSome
      · simp [h1, h2, ih, Except.map]
      · by_cases h4 :
          (property.source != .sourceLocal && property.source != .sourceTemporary) = true
        · simp [h1, h2, h4, ih]
        · by_cases h5 : isPoolProperty name = true
          · simp [h1, h2, h4, h5, ih]
          · simp [h1, h2, h4, h5, ih, Except.map]

theorem update_mode_bypass_eq (mode : String) (ignored : List String)
    (defined : List (String × String)) :
    ∀ observed : List (String × Property),
      (∀ np ∈ observed, np.1 ∈ ignored ∨ (lookupName defined np.1).isSome = true) →
      updatePropertiesInState mode ignored defined observed =
        .ok (observed.filterMap fun np =>
          if np.1 ∈ ignored then none
          else some (np.1, blockValue defined np.1 np.2))
  | [], _ => rfl
  | (name, property) :: rest, h => by
    have ih := update_mode_bypass_eq mode ignored defined rest
      (fun np hnp => h np (List.mem_cons_of_mem _ hnp))
    have hhead := h (name, property) (List.mem_cons_self _ _)
    simp only [updatePropertiesInState, List.filterMap_cons]
    by_cases h1 : name ∈ ignored
    · simp [h1, ih]
    · have h2 : (lookupName defined name).isSome = true := by
        rcases hhead with hmem | hsome
        · exact absurd hmem h1
        · exact hsome
      simp [h1, h2, ih, Except.map]

theorem update_invalid_mode_error (mode : String) (hd : mode ≠ "defined")
    (hn : mode ≠ "native") (ha : mode ≠ "all") (ignored : List String)
    (defined : List (String × String)) :
    ∀ observed : List (String × Property),
      (∃ np ∈ observed, np.1 ∉ ignored ∧ (lookupName defined np.1).isSome = false) →
      updatePropertiesInState mode ignored defined observed =
        .error ("invalid value " ++ mode ++ " for property_mode")
  | [], h => absurd h (by simp)
  | (name, property) :: rest, h => by
    have hd' : (mode == "defined") = false := by simp [hd]
    have hn' : (mode == "native") = false := by simp [hn]
    have ha' : (mode == "all") = false := by simp [ha]
    simp only [updatePropertiesInState]
    by_cases h1 : name ∈ ignored
    · have hrest : ∃ np ∈ rest, np.1 ∉ ignored ∧ (lookupName defined np.1).isSome = false := by
        rcases h with ⟨np, hmem, hni, hns⟩
        rcases List.mem_cons.mp hmem with heq | hmem'
        · subst heq
          exact absurd h1 hni
        · exact ⟨np, hmem', hni, hns⟩
      have ih := update_invalid_mode_error mode hd hn ha ignored defined rest hrest
      simp [h1, ih]
    · by_cases h2 : (lookupName defined name).isSome = true
      · have hrest : ∃ np ∈ rest, np.1 ∉ ignored ∧ (lookupName defined np.1).isSome = false := by
          rcases h with ⟨np, hmem, hni, hns⟩
          rcases List.mem_cons.mp hmem with heq | hmem'
          · subst heq
            rw [h2] at hns
            exact absurd hns (by simp)
          · exact ⟨np, hmem', hni, hns⟩
        have ih := update_invalid_mode_error mode hd hn ha ignored defined rest hrest
        simp [h1, h2, ih, Except.map]
      · simp only [Bool.not_eq_true] at h2
        simp [h1, h2, hd', hn', ha']

/-- The spec's description of which observed properties mode `native`
synthesizes a new declared block for: not ignored, not already declared,
name free of `:`, source `local` or `temporary`, and not a pool property. -/
def nativeSynthesized (ignored : List String) (defined : List (String × String))
    (np : String × Property) : Bool :=
  !ignored.contains np.1 && (lookupName defined np.1).isNone && !strContains np.1 ":" &&
    (np.2.source == .sourceLocal || np.2.source == .sourceTemporary) && !isPoolProperty np.1

/-- The spec's description for mode `all`: as `native` but without the `:`
exclusion. -/
def allSynthesized (ignored : List String) (defined : List (String × String))
    (np : String × Property) : Bool :=
  !ignored.contains np.1 && (lookupName defined np.1).isNone &&
    (np.2.source == .sourceLocal || np.2.source == .sourceTemporary) && !isPoolProperty np.1

theorem defined_new_blocks_eq (ignored : List String) (defined : List (String × String)) :
    ∀ observed : List (String × Property),
      ((observed.filterMap fun np =>
          if ignored.contains np.1 then none
          else if (lookupName defined np.1).isSome then
            some (np.1, blockValue defined np.1 np.2)
          else none).filter
        (fun b => (lookupName defined b.1).isNone)) = []
  | [] => rfl
  | (name, property) :: rest => by
    have ih := defined_new_blocks_eq ignored defined rest
    simp only [List.filterMap_cons]
    by_cases h1 : name ∈ ignored
    · simp [h1, -List.filter_eq_nil_iff, -List.filterMap_eq_nil_iff]
      simpa [-List.filter_eq_nil_iff, -List.filterMap_eq_nil_iff] using ih
    · by_cases h2 : (lookupName defined name).isSome = true
      · rcases Option.isSome_iff_exists.mp h2 with ⟨v, hv⟩
        simp [h1, hv, -List.filter_eq_nil_iff, -List.filterMap_eq_nil_iff]
        simpa [-List.filter_eq_nil_iff, -List.filterMap_eq_nil_iff] using ih
      · simp only [Bool.not_eq_true] at h2
        simp [h1, h2, -List.filter_eq_nil_iff, -List.filterMap_eq_nil_iff]
        simpa [-List.filter_eq_nil_iff, -List.filterMap_eq_nil_iff] using ih

theorem native_new_blocks_eq (ignored : List String) (defined : List (String × String)) :
    ∀ observed : List (String × Property),
      ((observed.filterMap fun np =>
          if ignored.contains np.1 then none
          else if (lookupName defined np.1).isSome then
            some (np.1, blockValue defined np.1 np.2)
          else if strContains np.1 ":" then none
          else if np.2.source != .sourceLocal && np.2.source != .sourceTemporary then none
          else if isPoolProperty np.1 then none
          else some (np.1, blockValue defined np.1 np.2)).filter
        (fun b => (lookupName defined b.1).isNone)) =
      (observed.filter (nativeSynthesized ignored defined)).map
        (fun np => (np.1, blockValue defined np.1 np.2))
  | [] => rfl
  | (name, property) :: rest => by
    have ih := native_new_blocks_eq ignored defined rest
    simp only [List.filterMap_cons, List.filter_cons]
    by_cases h1 : name ∈ ignored
    · simp [h1, nativeSynthesized]
      simpa using ih
    · by_cases h2 : (lookupName defined name).isSome = true
      · rcases Option.isSome_iff_exists.mp h2 with ⟨v, hv⟩
        simp [h1, hv, nativeSynthesized]
        simpa using ih
      · have hv : lookupName defined name = none := by
          rcases honone : lookupName defined name with _ | v
          · rfl
          · rw [honone] at h2
            exact absurd rfl h2
        by_cases h3 : strContains name ":" = true
        · simp [h1, hv, h3, nativeSynthesized]
          simpa using ih
        · simp only [Bool.not_eq_true] at h3
          cases hsrc : property.source
          all_goals by_cases h5 : isPoolProperty name = true
          all_goals simp [h1, hv, h3, hsrc, h5, nativeSynthesized]
          all_goals simpa using ih

theorem all_new_blocks_eq (ignored : List String) (defined : List (String × String)) :
    ∀ observed : List (String × Property),
      ((observed.filterMap fun np =>
          if ignored.contains np.1 then none
          else if (lookupName defined np.1).isSome then
            some (np.1, blockValue defined np.1 np.2)
          else if np.2.source != .sourceLocal && np.2.source != .sourceTemporary then none
          else if isPoolProperty np.1 then none
          else some (np.1, blockValue defined np.1 np.2)).filter
        (fun b => (lookupName defined b.1).isNone)) =
      (observed.filter (allSynthesized ignored defined)).map
        (fun np => (np.1, blockValue defined np.1 np.2))
  | [] => rfl
  | (name, property) :: rest => by
    have ih := all_new_blocks_eq ignored defined rest
    simp only [List.filterMap_cons, List.filter_cons]
    by_cases h1 : name ∈ ignored
    · simp [h1, allSynthesized]
      simpa using ih
    · by_cases h2 : (lookupName defined name).isSome = true
      · rcases Option.isSome_iff_exists.mp h2 with ⟨v, hv⟩
        simp [h1, hv, allSynthesized]
        simpa using ih
      · have hv : lookupName defined name = none := by
          rcases honone : lookupName defined name with _ | v
          · rfl
          · rw [honone] at h2
            exact absurd rfl h2
        cases hsrc : property.source
        all_goals by_cases h5 : isPoolProperty name = true
        all_goals simp [h1, hv, hsrc, h5, allSynthesized]
        all_goals simpa using ih

/-! ## Claim theorems -/

/-- C1: contrary to the claim, when the create command fails the code returns
a nil entity together with the original create error in every case — also
when the follow-up describe succeeds, in which case the described entity is
discarded (zfs.go:535-545 and zfs.go:579-589): the `return fetch_dataset,
err` branch is taken only when the describe failed, where the fetched entity
is necessarily nil, and the describe-succeeded path executes `return nil,
err`. -/
theorem claim_C1_create_failure_returns_nil_entity :
    (∀ (err : String) (d : Dataset), createDatasetResult (some err) (.ok d) = (none, some err)) ∧
    (∀ (err fetchErr : String),
      createDatasetResult (some err) (.error fetchErr) = (none, some err)) ∧
    (∀ (err : String) (p : Pool), createPoolResult (some err) (.ok p) = (none, some err)) ∧
    (∀ (err fetchErr : String),
      createPoolResult (some err) (.error fetchErr) = (none, some err)) :=
  ⟨fun _ _ => rfl, fun _ _ => rfl, fun _ _ => rfl, fun _ _ => rfl⟩

/-- C2: `updatePropertiesInState` synthesizes new declared blocks (blocks
whose name is not in the prior declared set) exactly per mode: none under
`defined`; under `native` one block per observed property that is not
ignored, not declared, has no `:` in its name, has source `local` or
`temporary`, and is not a pool property; under `all` the same without the
`:` exclusion. -/
theorem claim_C2_mode_synthesis (ignored : List String) (defined : List (String × String))
    (observed : List (String × Property)) :
    (∃ blocks, updatePropertiesInState "defined" ignored defined observed = .ok blocks ∧
      blocks.filter (fun b => (lookupName defined b.1).isNone) = []) ∧
    (∃ blocks, updatePropertiesInState "native" ignored defined observed = .ok blocks ∧
      blocks.filter (fun b => (lookupName defined b.1).isNone) =
        (observed.filter (nativeSynthesized ignored defined)).map
          (fun np => (np.1, blockValue defined np.1 np.2))) ∧
    (∃ blocks, updatePropertiesInState "all" ignored defined observed = .ok blocks ∧
      blocks.filter (fun b => (lookupName defined b.1).isNone) =
        (observed.filter (allSynthesized ignored defined)).map
          (fun np => (np.1, blockValue defined np.1 np.2))) :=
  ⟨⟨_, update_defined_eq ignored defined observed, defined_new_blocks_eq ignored defined observed⟩,
   ⟨_, update_native_eq ignored defined observed, native_new_blocks_eq ignored defined observed⟩,
   ⟨_, update_all_eq ignored defined observed, all_new_blocks_eq ignored defined observed⟩⟩

/-- C3: `callSshCommand` classifies failures by stderr in priority order —
dataset-not-found, then pool-not-found, then a generic error carrying the
raw stderr — and produces a transport error exactly when stderr is empty
and the transport failed or the channel reported not-completed. -/
theorem claim_C3_ssh_error_classification (stdout stderr : String) (done runErr : Bool) :
    ((classifySshRun stdout stderr done runErr = .datasetError "dataset does not exist") ↔
      (stderr ≠ "" ∧ strContains stderr "dataset does not exist" = true)) ∧
    ((classifySshRun stdout stderr done runErr = .poolError "zpool does not exist") ↔
      (stderr ≠ "" ∧ strContains stderr "dataset does not exist" = false ∧
        strContains stderr "no such pool" = true)) ∧
    ((classifySshRun stdout stderr done runErr = .stderrError stderr) ↔
      (stderr ≠ "" ∧ strContains stderr "dataset does not exist" = false ∧
        strContains stderr "no such pool" = false)) ∧
    (∀ msg, classifySshRun stdout stderr done runErr = .stderrError msg → msg = stderr) ∧
    ((∃ t, classifySshRun stdout stderr done runErr = .sshConnectError t) ↔
      (stderr = "" ∧ (runErr = true ∨ done = false))) := by
  unfold classifySshRun
  by_cases hs : stderr = ""
  · subst hs
    by_cases hr : runErr = true
    · simp [hr]
    · simp only [Bool.not_eq_true] at hr
      by_cases hdn : done = true
      · simp [hr, hdn]
      · simp only [Bool.not_eq_true] at hdn
        simp [hr, hdn]
  · by_cases hds : strContains stderr "dataset does not exist" = true
    · simp [hs, hds]
    · simp only [Bool.not_eq_true] at hds
      by_cases hps : strContains stderr "no such pool" = true
      · simp [hs, hds, hps]
      · simp only [Bool.not_eq_true] at hps
        simp [hs, hds, hps]

/-- C3 witness: a failed command whose stderr reports a missing dataset is
classified as the dataset-not-found error. -/
theorem claim_C3_ssh_error_classification_witness :
    classifySshRun "" "cannot open tank: dataset does not exist" true false =
      .datasetError "dataset does not exist" :=
  (claim_C3_ssh_error_classification "" "cannot open tank: dataset does not exist" true
    false).1.mpr ⟨by decide, by decide⟩

/-- C4: `readPoolLayout` discards the first (pool statistics) row, treats an
empty listing as the hard pool-layout error, and parses the claimed row
sequence into `striped = [/dev/sda]`, `mirrors = [[/dev/sdb, /dev/sdc]]` in
original order, without sorting or deduplicating (the third conjunct keeps
an out-of-order duplicate device list intact). -/
theorem claim_C4_pool_layout_rows :
    readPoolLayoutRows [] = .error "failed to read pool layout" ∧
    (∀ statsRow, readPoolLayoutRows
        [statsRow, "/dev/sda", "mirror-0", "/dev/sdb", "/dev/sdc"] =
      .ok ⟨[⟨[⟨"/dev/sdb"⟩, ⟨"/dev/sdc"⟩]⟩], [⟨"/dev/sda"⟩]⟩) ∧
    readPoolLayoutRows ["tank-stats", "/dev/sdb", "/dev/sda", "/dev/sda"] =
      .ok ⟨[], [⟨"/dev/sdb"⟩, ⟨"/dev/sda"⟩, ⟨"/dev/sda"⟩]⟩ :=
  ⟨rfl, fun _ => rfl, rfl⟩

/-- C5: every property name declared before but not after is part of the
removed set of `applyPropertyDiff`, and its reset action is: skip for a pool
property, `zfs set <name>=none <target>` for a name containing `quota@`,
and `zfs inherit -S <name> <target>` otherwise (names shell-quoted as in
the code). -/
theorem claim_C5_removed_property_reset (targetName name : String)
    (oldProperties newProperties : List (String × String))
    (hold : name ∈ oldProperties.map Prod.fst)
    (hnew : name ∉ newProperties.map Prod.fst) :
    name ∈ removedNames oldProperties newProperties ∧
    (isPoolProperty name = true → resetActionFor targetName name = .skip) ∧
    (isPoolProperty name = false → strContains name "quota@" = true →
      resetActionFor targetName name =
        .command ("zfs set " ++ shellQuote name ++ "=none" ++ " " ++ targetName)) ∧
    (isPoolProperty name = false → strContains name "quota@" = false →
      resetActionFor targetName name =
        .command ("zfs inherit -S " ++ shellQuote name ++ " " ++ targetName)) ∧
    resetActionFor targetName name ∈ removalActions targetName oldProperties newProperties := by
  have hmem : name ∈ removedNames oldProperties newProperties := by
    rcases List.mem_map.mp hold with ⟨block, hbold, hfst⟩
    have hbnew : block ∉ newProperties := fun hb =>
      hnew (hfst ▸ List.mem_map_of_mem Prod.fst hb)
    unfold removedNames
    rw [List.mem_dedup]
    exact List.mem_map.mpr ⟨block, List.mem_filter.mpr ⟨hbold, by simp [hbnew]⟩, hfst⟩
  refine ⟨hmem, ?_, ?_, ?_, List.mem_map_of_mem (resetActionFor targetName) hmem⟩
  · intro hpool
    simp [resetActionFor, getResetCommand, hpool]
  · intro hpool hquota
    simp [resetActionFor, getResetCommand, hpool, hquota]
  · intro hpool hquota
    simp [resetActionFor, getResetCommand, hpool, hquota]

/-- C5 witness: removing the declared property `userquota@alice` from a
dataset `tank` resets it with `zfs set userquota@alice=none tank`. -/
theorem claim_C5_removed_property_reset_witness :
    resetActionFor "tank" "userquota@alice" =
      .command ("zfs set " ++ shellQuote "userquota@alice" ++ "=none" ++ " " ++ "tank") :=
  (claim_C5_removed_property_reset "tank" "userquota@alice" [("userquota@alice", "5")] []
    (by decide) (by decide)).2.2.1 (by decide) (by decide)

/-- C6 counterexample: under mode `defined`, a declared pair
`(compression, off)` with observed value `on` is rewritten to
`(compression, on)` — the declared value is replaced — and a declared pair
whose name is absent from the observed map is dropped outright, refuting the
pass-through claim. -/
theorem claim_C6_counterexample_defined_not_passthrough :
    updatePropertiesInState "defined" [] [("compression", "off")]
        [("compression", ⟨.sourceLocal, "on", "on"⟩)] = .ok [("compression", "on")] ∧
    updatePropertiesInState "defined" [] [("compression", "off")]
        [("compression", ⟨.sourceLocal, "on", "on"⟩)] ≠ .ok [("compression", "off")] ∧
    updatePropertiesInState "defined" [] [("quota", "10")] [] = .ok [] := by
  refine ⟨rfl, ?_, rfl⟩
  decide

/-- C6 amended: under mode `defined` no new blocks are synthesized, but the
declared set is rebuilt from the observed map: exactly the observed
properties that are not ignored and whose name is declared survive, each
with the observed value (the raw value when the prior declared value equals
the observed raw value); declared pairs not present in the observed map are
dropped. -/
theorem claim_C6_defined_rebuilds_declared (ignored : List String)
    (defined : List (String × String)) (observed : List (String × Property)) :
    updatePropertiesInState "defined" ignored defined observed =
      .ok (observed.filterMap fun np =>
        if ignored.contains np.1 then none
        else if (lookupName defined np.1).isSome then
          some (np.1, blockValue defined np.1 np.2)
        else none) :=
  update_defined_eq ignored defined observed

/-- C7 counterexample: with an empty observed property map the invalid mode
`bogus` is accepted without error, refuting the claim that any mode outside
the three valid ones always fails. -/
theorem claim_C7_counterexample_invalid_mode_accepted :
    updatePropertiesInState "bogus" [] [] [] = .ok [] := rfl

/-- C7 amended: an invalid property mode produces the hard configuration
error exactly when some observed property is neither ignored nor already
declared; when every observed property bypasses the mode switch, the
invalid mode goes undetected. -/
theorem claim_C7_invalid_mode_error_iff (mode : String) (ignored : List String)
    (defined : List (String × String)) (observed : List (String × Property))
    (hd : mode ≠ "defined") (hn : mode ≠ "native") (ha : mode ≠ "all") :
    updatePropertiesInState mode ignored defined observed =
        .error ("invalid value " ++ mode ++ " for property_mode") ↔
      ∃ np ∈ observed, np.1 ∉ ignored ∧ (lookupName defined np.1).isSome = false := by
  constructor
  · intro herr
    by_contra hno
    push_neg at hno
    have hall : ∀ np ∈ observed, np.1 ∈ ignored ∨ (lookupName defined np.1).isSome = true := by
      intro np hnp
      by_cases hm : np.1 ∈ ignored
      · exact Or.inl hm
      · rcases hsome : (lookupName defined np.1).isSome with _ | _
        · exact absurd hsome (hno np hnp hm)
        · exact Or.inr rfl
    rw [update_mode_bypass_eq mode ignored defined observed hall] at herr
    exact absurd herr (by simp)
  · exact update_invalid_mode_error mode hd hn ha ignored defined observed

/-- C7 witness: mode `bogus` with one observed, undeclared, unignored
property fails with the configuration error. -/
theorem claim_C7_invalid_mode_error_iff_witness :
    updatePropertiesInState "bogus" [] [] [("compression", ⟨.sourceLocal, "on", "on"⟩)] =
      .error ("invalid value " ++ "bogus" ++ " for property_mode") :=
  (claim_C7_invalid_mode_error_iff "bogus" [] [] [("compression", ⟨.sourceLocal, "on", "on"⟩)]
    (by decide) (by decide) (by decide)).mpr
    ⟨("compression", ⟨.sourceLocal, "on", "on"⟩), by decide, by decide, rfl⟩

/-- C8 counterexample: `resourceDatasetRead` guards the ownership lookup
only against `none` and `legacy` (resource_dataset.go:179); an empty
mountpoint passes the guard, so a stat command is issued, refuting the claim
that all three sentinel values skip the lookup in the resource reads. -/
theorem claim_C8_counterexample_empty_mountpoint_stats :
    resourceDatasetReadOwnershipLookup "" = true := rfl

/-- C8 amended: the resource dataset read skips the ownership lookup for
`none` and `legacy` but performs it for the empty mountpoint; the
data-source read short-circuits all three sentinels; the pool resource read
never performs an ownership lookup at all. -/
theorem claim_C8_sentinel_guards :
    resourceDatasetReadOwnershipLookup "none" = false ∧
    resourceDatasetReadOwnershipLookup "legacy" = false ∧
    resourceDatasetReadOwnershipLookup "" = true ∧
    dataSourceDatasetReadOwnershipLookup "" = false ∧
    dataSourceDatasetReadOwnershipLookup "none" = false ∧
    dataSourceDatasetReadOwnershipLookup "legacy" = false ∧
    (∀ mountpoint, resourcePoolReadOwnershipLookup mountpoint = false) :=
  ⟨rfl, rfl, rfl, rfl, rfl, rfl, fun _ => rfl⟩

/-- Well-formedness of the vdev rows following the discarded statistics row:
every row opening a mirror group is followed by at least two non-mirror
(device) rows before the next mirror row or the end of the listing.  Actual
`zpool list -HPv` output satisfies this because a zpool mirror always has at
least two member devices. -/
def mirrorSegmentsOk : List String → Bool
  | [] => true
  | r :: rest =>
    if strStartsWith r "mirror" then
      decide (2 ≤ (rest.takeWhile (fun x => !strStartsWith x "mirror")).length) &&
        mirrorSegmentsOk rest
    else mirrorSegmentsOk rest

theorem appendToLastMirror_concat (d : Device) :
    ∀ (ms : List Mirror) (m : Mirror),
      appendToLastMirror d (ms ++ [m]) = ms ++ [⟨m.devices ++ [d]⟩]
  | [], _ => rfl
  | m0 :: ms, m => by
    cases ms with
    | nil => rfl
    | cons m1 ms' =>
      have ih := appendToLastMirror_concat d (m1 :: ms') m
      have hstep : appendToLastMirror d ((m0 :: m1 :: ms') ++ [m]) =
          m0 :: appendToLastMirror d ((m1 :: ms') ++ [m]) := rfl
      rw [hstep, ih]
      simp

theorem foldl_mirrors_two_le :
    ∀ (rows : List String) (ms : List Mirror) (m : Mirror) (s : List Device),
      mirrorSegmentsOk rows = true →
      (∀ x ∈ ms, 2 ≤ x.devices.length) →
      2 ≤ m.devices.length + (rows.takeWhile (fun r => !strStartsWith r "mirror")).length →
      ∀ x ∈ (rows.foldl poolLayoutStep ⟨ms ++ [m], s⟩).mirrors, 2 ≤ x.devices.length
  | [], ms, m, s, _, hms, hm, x, hx => by
    simp only [List.foldl_nil] at hx
    rcases List.mem_append.mp hx with hin | hlast
    · exact hms x hin
    · rw [List.mem_singleton.mp hlast]
      simpa using hm
  | r :: rest, ms, m, s, hok, hms, hm, x, hx => by
    simp only [List.foldl_cons] at hx
    by_cases hr : strStartsWith r "mirror" = true
    · have hstep : poolLayoutStep ⟨ms ++ [m], s⟩ r = ⟨(ms ++ [m]) ++ [⟨[]⟩], s⟩ := by
        simp [poolLayoutStep, hr]
      rw [hstep] at hx
      have hok' : mirrorSegmentsOk (r :: rest) =
          (decide (2 ≤ (rest.takeWhile (fun x => !strStartsWith x "mirror")).length) &&
            mirrorSegmentsOk rest) := by
        simp [mirrorSegmentsOk, hr]
      rw [hok'] at hok
      rcases Bool.and_eq_true_iff.mp hok with ⟨hcnt, hrest⟩
      have hcnt' : 2 ≤ (rest.takeWhile (fun x => !strStartsWith x "mirror")).length :=
        of_decide_eq_true hcnt
      have hmfull : 2 ≤ m.devices.length := by
        have : (r :: rest).takeWhile (fun r => !strStartsWith r "mirror") = [] := by
          simp [List.takeWhile_cons, hr]
        rw [this] at hm
        simpa using hm
      exact foldl_mirrors_two_le rest (ms ++ [m]) ⟨[]⟩ s hrest
        (fun y hy => by
          rcases List.mem_append.mp hy with hin | hlast
          · exact hms y hin
          · rw [List.mem_singleton.mp hlast]
            exact hmfull)
        (by simpa using hcnt') x hx
    · have hne : (ms ++ [m]).isEmpty = false := by simp
      have hstep : poolLayoutStep ⟨ms ++ [m], s⟩ r =
          ⟨ms ++ [⟨m.devices ++ [⟨r⟩]⟩], s⟩ := by
        simp only [poolLayoutStep, hr]
        simp [hne, appendToLastMirror_concat]
      rw [hstep] at hx
      have hok' : mirrorSegmentsOk rest = true := by
        have : mirrorSegmentsOk (r :: rest) = mirrorSegmentsOk rest := by
          simp [mirrorSegmentsOk, hr]
        rw [this] at hok
        exact hok
      have htw : (r :: rest).takeWhile (fun r => !strStartsWith r "mirror") =
          r :: rest.takeWhile (fun r => !strStartsWith r "mirror") := by
        simp [List.takeWhile_cons, hr]
      rw [htw] at hm
      simp only [List.length_cons] at hm
      exact foldl_mirrors_two_le rest ms ⟨m.devices ++ [⟨r⟩]⟩ s hok' hms
        (by simp only [List.length_append, List.length_singleton]; omega) x hx

theorem foldl_mirrors_from_empty :
    ∀ (rows : List String) (s : List Device),
      mirrorSegmentsOk rows = true →
      ∀ x ∈ (rows.foldl poolLayoutStep ⟨[], s⟩).mirrors, 2 ≤ x.devices.length
  | [], s, _, x, hx => by simp at hx
  | r :: rest, s, hok, x, hx => by
    simp only [List.foldl_cons] at hx
    by_cases hr : strStartsWith r "mirror" = true
    · have hstep : poolLayoutStep ⟨[], s⟩ r = ⟨[] ++ [⟨[]⟩], s⟩ := by
        simp [poolLayoutStep, hr]
      rw [hstep] at hx
      have hok' : mirrorSegmentsOk (r :: rest) =
          (decide (2 ≤ (rest.takeWhile (fun x => !strStartsWith x "mirror")).length) &&
            mirrorSegmentsOk rest) := by
        simp [mirrorSegmentsOk, hr]
      rw [hok'] at hok
      rcases Bool.and_eq_true_iff.mp hok with ⟨hcnt, hrest⟩
      exact foldl_mirrors_two_le rest [] ⟨[]⟩ s hrest (by simp)
        (by simpa using of_decide_eq_true hcnt) x hx
    · have hstep : poolLayoutStep ⟨[], s⟩ r = ⟨[], s ++ [⟨r⟩]⟩ := by
        simp [poolLayoutStep, hr]
      rw [hstep] at hx
      have hok' : mirrorSegmentsOk rest = true := by
        have : mirrorSegmentsOk (r :: rest) = mirrorSegmentsOk rest := by
          simp [mirrorSegmentsOk, hr]
        rw [this] at hok
        exact hok
      exact foldl_mirrors_from_empty rest (s ++ [⟨r⟩]) hok' x hx

/-- C9 counterexample: the parser enforces no minimum mirror size — a
listing whose mirror marker is followed by no device rows is accepted and
yields a Mirror with zero devices, refuting the ≥2 invariant. -/
theorem claim_C9_counterexample_undersized_mirror :
    readPoolLayoutRows ["tank-stats", "mirror-0"] = .ok ⟨[⟨[]⟩], []⟩ ∧
    (Mirror.mk []).devices.length < 2 :=
  ⟨rfl, by decide⟩

/-- C9 amended: `readPoolLayout` performs no mirror-size validation itself,
but for every accepted listing in which each mirror marker is followed by at
least two device rows before the next marker or the end — which genuine
`zpool list -HPv` output guarantees — every Mirror of the result has at
least 2 devices. -/
theorem claim_C9_mirror_size (rows : List String) (layout : PoolLayout)
    (hok : mirrorSegmentsOk rows.tail = true)
    (hparse : readPoolLayoutRows rows = .ok layout) :
    ∀ m ∈ layout.mirrors, 2 ≤ m.devices.length := by
  cases rows with
  | nil => exact absurd hparse (by simp [readPoolLayoutRows])
  | cons statsRow rest =>
    have hlay : layout = rest.foldl poolLayoutStep ⟨[], []⟩ :=
      (Except.ok.inj hparse).symm
    rw [hlay]
    exact foldl_mirrors_from_empty rest [] (by simpa using hok)

/-- C9 witness: the well-formed listing of one striped device and one
two-device mirror satisfies the ≥2 bound for its parsed mirror. -/
theorem claim_C9_mirror_size_witness :
    2 ≤ (Mirror.mk [⟨"/dev/sdb"⟩, ⟨"/dev/sdc"⟩]).devices.length :=
  claim_C9_mirror_size ["tank-stats", "/dev/sda", "mirror-0", "/dev/sdb", "/dev/sdc"]
    ⟨[⟨[⟨"/dev/sdb"⟩, ⟨"/dev/sdc"⟩]⟩], [⟨"/dev/sda"⟩]⟩ (by decide) rfl
    ⟨[⟨"/dev/sdb"⟩, ⟨"/dev/sdc"⟩]⟩ (by simp)

/-- C10 counterexample: a stat line with only two comma-separated fields
makes `getFileOwnership` index `values[2]` out of range — a runtime panic,
not a parse error — refuting the never-crashes claim. -/
theorem claim_C10_counterexample_short_stat_line :
    getFileOwnership "a,b" = .indexOutOfRange := rfl

/-- C10 amended: `getFileOwnership` returns an Ownership record for lines
with at least four fields and numeric uid/gid, and a hard error for a
non-numeric uid/gid field it reaches; but it performs no field-count check:
a line with at most two fields always panics with an index-out-of-range, and
a three-field line panics unless its third field is non-numeric, in which
case the uid parse error fires first. -/
theorem claim_C10_stat_parse (output : String) :
    ((goSplitComma output).length ≤ 2 → getFileOwnership output = .indexOutOfRange) ∧
    (∀ u : Int, (goSplitComma output).length = 3 →
      goAtoi ((goSplitComma output).getD 2 "") = some u →
      getFileOwnership output = .indexOutOfRange) ∧
    ((goSplitComma output).length = 3 →
      goAtoi ((goSplitComma output).getD 2 "") = none →
      getFileOwnership output = .err ((goSplitComma output).getD 2 "")) ∧
    (∀ u g : Int, 4 ≤ (goSplitComma output).length →
      goAtoi ((goSplitComma output).getD 2 "") = some u →
      goAtoi ((goSplitComma output).getD 3 "") = some g →
      getFileOwnership output =
        .ok ⟨(goSplitComma output).getD 0 "", (goSplitComma output).getD 1 "", u, g⟩) ∧
    (4 ≤ (goSplitComma output).length →
      goAtoi ((goSplitComma output).getD 2 "") = none →
      getFileOwnership output = .err ((goSplitComma output).getD 2 "")) ∧
    (∀ u : Int, 4 ≤ (goSplitComma output).length →
      goAtoi ((goSplitComma output).getD 2 "") = some u →
      goAtoi ((goSplitComma output).getD 3 "") = none →
      getFileOwnership output = .err ((goSplitComma output).getD 3 "")) := by
  refine ⟨?_, ?_, ?_, ?_, ?_, ?_⟩
  · intro hlen
    simp [getFileOwnership, hlen]
  · intro u hlen hu
    have h2 : ¬(goSplitComma output).length ≤ 2 := by omega
    have h3 : (goSplitComma output).length ≤ 3 := by omega
    simp only [List.getD_eq_getElem?_getD] at hu
    simp [getFileOwnership, h2, h3, hu]
  · intro hlen hu
    have h2 : ¬(goSplitComma output).length ≤ 2 := by omega
    simp only [List.getD_eq_getElem?_getD] at hu
    simp [getFileOwnership, h2, hu]
  · intro u g hlen hu hg
    have h2 : ¬(goSplitComma output).length ≤ 2 := by omega
    have h3 : ¬(goSplitComma output).length ≤ 3 := by omega
    simp only [List.getD_eq_getElem?_getD] at hu hg
    simp [getFileOwnership, h2, h3, hu, hg]
  · intro hlen hu
    have h2 : ¬(goSplitComma output).length ≤ 2 := by omega
    simp only [List.getD_eq_getElem?_getD] at hu
    simp [getFileOwnership, h2, hu]
  · intro u hlen hu hg
    have h2 : ¬(goSplitComma output).length ≤ 2 := by omega
    have h3 : ¬(goSplitComma output).length ≤ 3 := by omega
    simp only [List.getD_eq_getElem?_getD] at hu hg
    simp [getFileOwnership, h2, h3, hu, hg]

/-- C10 witness: the well-formed stat line `root,wheel,0,0` parses into the
expected Ownership record. -/
theorem claim_C10_stat_parse_witness :
    getFileOwnership "root,wheel,0,0" = .ok ⟨"root", "wheel", 0, 0⟩ :=
  (claim_C10_stat_parse "root,wheel,0,0").2.2.2.1 0 0 (by decide) (by decide) (by decide)

end ZfsProvider
